import Mathlib

/-
Verification of the categorical / contact-statistics analyzers:
a shallow embedding of `analysis.py` (create_categorical_table,
calculate_categorical_metrics) and of the stratified branch of
`common.py` (display_errands_stats), over exact rationals.

Python/numpy floats are modelled by exact rationals; Python `round`
and numpy `.round` (round half to even) are modelled by `roundQ`;
a pandas `std()` that would be NaN (fewer than two points) is
modelled by `Option` value `none`.
-/

namespace ErrandsAnalysis

attribute [local semireducible] Rat.ofScientific Rat.mul Rat.inv Rat.add Rat.sub

/-- Python `round` to an integer: round half to even (banker's rounding). -/
def roundHalfEven (x : ℚ) : ℤ :=
  let f := x.floor
  let r := x - (f : ℚ)
  if r < 1/2 then f
  else if 1/2 < r then f + 1
  else if f % 2 = 0 then f else f + 1

/-- Python `round(x, n)` / numpy `.round(n)`: round to n decimal places, half to even. -/
def roundQ (n : ℕ) (x : ℚ) : ℚ := (roundHalfEven (x * 10 ^ n) : ℚ) / 10 ^ n

/-- Insert into a sorted list (used to model sorting of values). -/
def insertSorted {α : Type} [LinearOrder α] (x : α) : List α → List α
  | [] => [x]
  | y :: ys => if x ≤ y then x :: y :: ys else y :: insertSorted x ys

/-- Sort a list ascending (insertion sort). -/
def sortL {α : Type} [LinearOrder α] (l : List α) : List α := l.foldr insertSorted []

/-- pandas `Series.quantile(q)` with the default linear interpolation:
position `h = (n-1)*q` in the sorted values, interpolating between the
two neighbouring order statistics. -/
def quantileQ (q : ℚ) (xs : List ℚ) : ℚ :=
  let s := sortL xs
  if s.length = 0 then 0
  else
    let h := ((s.length : ℚ) - 1) * q
    let lo := h.floor.toNat
    let x0 := s.getD lo 0
    let x1 := s.getD (lo + 1) x0
    x0 + (h - (h.floor : ℚ)) * (x1 - x0)

/-- Mean of a list of natural-number measurements (pandas `Series.mean`). -/
def meanQ (xs : List ℕ) : ℚ := ((xs.sum : ℕ) : ℚ) / (xs.length : ℚ)

/-- pandas `Series.std()` (sample standard deviation, ddof = 1), represented by
its variance; `none` models the NaN returned for fewer than two points. -/
def sampleVar (xs : List ℚ) : Option ℚ :=
  if 2 ≤ xs.length then
    some ((xs.map fun x => (x - xs.sum / (xs.length : ℚ)) ^ 2).sum / ((xs.length : ℚ) - 1))
  else none

/-- `sampleVar` applied to raw natural-number measurements. -/
def sampleVarN (xs : List ℕ) : Option ℚ := sampleVar (xs.map fun x => (x : ℚ))

/-- Python division of built-in numbers: raises `ZeroDivisionError` on a zero
denominator. -/
def pydiv (a b : ℚ) : Except String ℚ :=
  if b = 0 then Except.error "ZeroDivisionError" else Except.ok (a / b)

/-- Prefix sums starting from an accumulator (pandas `cumsum`). -/
def cumsumFrom (acc : ℚ) : List ℚ → List ℚ
  | [] => []
  | x :: xs => (acc + x) :: cumsumFrom (acc + x) xs

/-- pandas `Series.cumsum()`. -/
def cumsum (l : List ℚ) : List ℚ := cumsumFrom 0 l

/- ===== analysis.py ===== -/

/-- The metrics dictionary returned by `calculate_categorical_metrics`. -/
structure Metrics where
  unique : ℕ
  gini_coef : ℚ
  abs_top_cat : ℕ
  rel_top_cat : ℚ
deriving DecidableEq

/-- `calculate_categorical_metrics(category_counts)` (analysis.py lines 105-129).
The input is the list of counts of the value-counts series (descending order);
the category labels play no role. -/
def calculate_categorical_metrics (counts : List ℕ) : Metrics :=
  let total : ℚ := ((counts.sum : ℕ) : ℚ)
  let proportions := counts.map fun (c : ℕ) => (c : ℚ) / total
  let gini := 1 - (proportions.map fun p => p ^ 2).sum
  let cumulative := cumsum proportions
  let top80 := (cumulative.filter fun r => decide (r ≤ (0.8 : ℚ))).length + 1
  let n := counts.length
  let rel : ℚ := if 0 < n then (top80 : ℚ) / (n : ℚ) else 0
  { unique := n
    gini_coef := roundQ 4 gini
    abs_top_cat := top80
    rel_top_cat := roundQ 4 rel }

/-- A row of the table built by `create_categorical_table`: either a data row
(category, count, ratio) or the literal "..." separator row. -/
inductive TRow where
  | data (category : String) (count : ℕ) (ratioVal : ℚ)
  | sep
deriving DecidableEq

/-- Total count of a value-counts mapping. -/
def totalCountOf (counts : List (String × ℕ)) : ℕ := (counts.map fun p => p.2).sum

/-- The full (untruncated) table of `create_categorical_table`
(analysis.py lines 71-79): one data row per category, in the input
(descending-frequency) order, with ratio `count / total` rounded to 4 decimals. -/
def fullTable (counts : List (String × ℕ)) : List TRow :=
  counts.map fun p => TRow.data p.1 p.2 (roundQ 4 ((p.2 : ℚ) / ((totalCountOf counts : ℕ) : ℚ)))

/-- pandas `DataFrame.head(n)`: first n rows; for negative n, all but the last |n| rows. -/
def pyHead (n : ℤ) (rows : List TRow) : List TRow :=
  if 0 ≤ n then rows.take n.toNat else rows.take (rows.length - (-n).toNat)

/-- pandas `DataFrame.tail(n)`: last n rows; for negative n, all but the first |n| rows. -/
def pyTail (n : ℤ) (rows : List TRow) : List TRow :=
  if 0 ≤ n then rows.drop (rows.length - n.toNat) else rows.drop (-n).toNat

/-- `create_categorical_table(category_counts, top_n, bottom_n)`
(analysis.py lines 54-102).  `none` models a `top_n`/`bottom_n` of Python
`None`; the guard `if top_n and bottom_n and len(category_counts) > (top_n +
bottom_n + 1)` uses Python truthiness, so `None` and `0` both fail it.
There is no validation of the parameters anywhere in the function. -/
def create_categorical_table (counts : List (String × ℕ))
    (top_n bottom_n : Option ℤ) : List TRow :=
  let full := fullTable counts
  if top_n.getD 0 ≠ 0 ∧ bottom_n.getD 0 ≠ 0 ∧
      top_n.getD 0 + bottom_n.getD 0 + 1 < (counts.length : ℤ) then
    pyHead (top_n.getD 0) full ++ [TRow.sep] ++ pyTail (bottom_n.getD 0) full
  else full

/-- Sum of the ratio column of a table (separator rows contribute nothing). -/
def ratioVal : TRow → ℚ
  | TRow.data _ _ r => r
  | TRow.sep => 0

/-- Sum of all ratio values in a table. -/
def tableRatioSum (rows : List TRow) : ℚ := (rows.map ratioVal).sum

/- ===== common.py, display_errands_stats (stratified branch, lines 182-241) =====

A stratified statistics map (the output of `compute_contacts_stats` with a
`stratify_by` column) is modelled as an association list from group key to the
group's raw series of `count_errands` values; the record fields read by
`display_errands_stats` (`count`, `mean`, `series`) are exactly
`series.count()`, `series.mean()` and the raw series. -/

/-- `group_series.value_counts().sort_index()`: the distinct values of the
series, ascending, each with its multiplicity. -/
def valueCountsSorted (s : List ℕ) : List (ℕ × ℕ) :=
  ((sortL s).dedup).map fun v => (v, s.count v)

/-- `errand_counts.get(i, 0)`: label-based lookup with default 0. -/
def vcGet (vc : List (ℕ × ℕ)) (i : ℕ) : ℕ :=
  ((vc.find? fun p => p.1 == i).map fun p => p.2).getD 0

/-- The percentage vector of a group (common.py lines 222-231):
`round(errand_counts.get(i, 0) / group_count, 2)` for i = 0..4, then the "5+"
entry `round(errand_counts[5:].sum() / group_count, 2)`.  `errand_counts[5:]`
is a pandas positional slice on the integer-indexed series: it keeps the
entries after the first five distinct values, not the values  ≥ 5.
(The numpy divisions here do not raise on a zero denominator; every use has a
nonempty group, so the denominator is positive.) -/
def pctVector (series : List ℕ) (groupCount : ℕ) : List ℚ :=
  let vc := valueCountsSorted series
  ((List.range 5).map fun i => roundQ 2 ((vcGet vc i : ℚ) / (groupCount : ℚ)))
    ++ [roundQ 2 (((((vc.drop 5).map fun p => p.2).sum : ℕ) : ℚ) / (groupCount : ℚ))]

/-- `[stats[other_group]["mean"] for other_group in stats if other_group != group]`
(common.py lines 209-213). -/
def otherMeansOf (stats : List (String × List ℕ)) (g : String) : List ℚ :=
  (stats.filter fun p => decide (p.1 ≠ g)).map fun p => meanQ p.2

/-- `small_threshold = pd.Series(all_counts).quantile(0.25)` with
`all_counts = [group_stats["count"] for group_stats in stats.values()]`
(common.py lines 188-189). -/
def smallThreshold (stats : List (String × List ℕ)) : ℚ :=
  quantileQ 0.25 (stats.map fun p => ((p.2.length : ℕ) : ℚ))

/-- The data computed for one group's markdown row that can raise: the
inter-group baseline mean `sum(other_means) / len(other_means)` is an
unguarded Python division (common.py line 214, ZeroDivisionError when the
group is the only one), followed by the percentage vector. -/
structure GroupRow where
  group : String
  count : ℕ
  mean : ℚ
  otherMean : ℚ
  otherVar : Option ℚ
  pctVec : List ℚ
deriving DecidableEq

/-- Processing of one group inside the loop of `display_errands_stats`
(common.py lines 195-241), keeping the computed values; the z-scores
themselves are modelled separately (`globalZ`, `interZ`) since they are
guarded and cannot raise. -/
def processGroup (stats : List (String × List ℕ)) (p : String × List ℕ) :
    Except String GroupRow := do
  let oms := otherMeansOf stats p.1
  let om ← pydiv oms.sum ((oms.length : ℕ) : ℚ)
  Except.ok
    { group := p.1
      count := p.2.length
      mean := meanQ p.2
      otherMean := om
      otherVar := sampleVar oms
      pctVec := pctVector p.2 p.2.length }

/-- The stratified branch of `display_errands_stats`: one row per group, in
map order; any ZeroDivisionError raised for some group aborts the whole
rendering. -/
def stratifiedRows (stats : List (String × List ℕ)) : Except String (List GroupRow) :=
  stats.mapM (processGroup stats)

/-- The shared z-score pattern `diff / std if std > 0 else 0` (common.py
lines 201-203 and 217), with `std` the square root of the sample variance;
`none` models a NaN `std`, for which the Python comparison `std > 0` is
False, so the guard also yields 0. -/
noncomputable def pyZScore (diff : ℚ) (v : Option ℚ) : ℝ :=
  match v with
  | some w => if 0 < Real.sqrt w then (diff : ℝ) / Real.sqrt w else 0
  | none => 0

/-- The global z-score of a group: `(group_mean - overall_mean) / overall_std
if overall_std > 0 else 0` (common.py lines 200-203). -/
noncomputable def globalZ (overall series : List ℕ) : ℝ :=
  pyZScore (meanQ series - meanQ overall) (sampleVarN overall)

/-- The inter-group z-score: `(group_mean - other_mean) / other_std if
other_std > 0 else 0` (common.py lines 215-217), as a function of the other
groups' means. -/
noncomputable def interZ (oms : List ℚ) (groupMean : ℚ) : ℝ :=
  pyZScore (groupMean - oms.sum / ((oms.length : ℕ) : ℚ)) (sampleVar oms)

/-- `z_score_flag = "*" if abs(z_score) > 2 and group_count > small_threshold
else ""` (common.py lines 204-206): the proposition that the global outlier
flag of a group with raw series `series` is set. -/
def globFlag (overall : List ℕ) (stats : List (String × List ℕ))
    (series : List ℕ) : Prop :=
  2 < |globalZ overall series| ∧ smallThreshold stats < ((series.length : ℕ) : ℚ)

/-- `mean_outlier_flag = "*" if abs(mean_z_score) > 2 and group_count >
small_threshold else ""` (common.py lines 218-220): the proposition that the
inter-group outlier flag of group `g` with raw series `series` is set. -/
def interFlag (stats : List (String × List ℕ)) (g : String)
    (series : List ℕ) : Prop :=
  2 < |interZ (otherMeansOf stats g) (meanQ series)| ∧
    smallThreshold stats < ((series.length : ℕ) : ℚ)

/- ===== Helper lemmas ===== -/

/-- The executable `Rat.floor` agrees with the floor of the ordered field ℚ. -/
lemma ratFloor_eq_intFloor (x : ℚ) : x.floor = ⌊x⌋ := by
  rw [Rat.floor_def', ← Rat.floor_def]

/-- Division distributes over a list sum. -/
lemma sum_map_div (l : List ℚ) (t : ℚ) : (l.map fun x => x / t).sum = l.sum / t := by
  induction l with
  | nil => simp
  | cons x xs ih => simp [ih, add_div]

/-- Summing the cast-and-divide image of a list of naturals. -/
lemma sum_map_natCast_div (l : List ℕ) (t : ℚ) :
    (l.map fun (c : ℕ) => (c : ℚ) / t).sum = ((l.sum : ℕ) : ℚ) / t := by
  induction l with
  | nil => simp
  | cons x xs ih => simp [ih, add_div, Nat.cast_add]

/-- Summing the count-cast-and-divide image of a list of pairs. -/
lemma sum_map_pair_div (l : List (String × ℕ)) (t : ℚ) :
    (l.map fun p => (p.2 : ℚ) / t).sum = (((l.map fun p => p.2).sum : ℕ) : ℚ) / t := by
  induction l with
  | nil => simp
  | cons x xs ih => simp [ih, add_div, Nat.cast_add]

/-- `cumsumFrom` preserves length. -/
lemma cumsumFrom_length (l : List ℚ) : ∀ acc, (cumsumFrom acc l).length = l.length := by
  induction l with
  | nil => intro acc; rfl
  | cons x xs ih => intro acc; simp [cumsumFrom, ih]

/-- The total sum (shifted by the accumulator) appears among the prefix sums of
a nonempty list. -/
lemma add_sum_mem_cumsumFrom (l : List ℚ) :
    ∀ acc, l ≠ [] → acc + l.sum ∈ cumsumFrom acc l := by
  induction l with
  | nil => intro acc h; exact absurd rfl h
  | cons x xs ih =>
    intro acc _
    rw [List.sum_cons, ← add_assoc]
    rcases eq_or_ne xs [] with hx | hx
    · subst hx; simp [cumsumFrom]
    · exact List.mem_cons_of_mem _ (ih (acc + x) hx)

/-- A list containing an element that fails the predicate filters to a strictly
shorter list. -/
lemma length_filter_lt_of_mem {α : Type} (p : α → Bool) (l : List α) (a : α)
    (ha : a ∈ l) (hpa : p a = false) : (l.filter p).length < l.length := by
  induction l with
  | nil => cases ha
  | cons x xs ih =>
    rcases List.mem_cons.mp ha with rfl | hmem
    · rw [List.filter_cons_of_neg (by simp [hpa])]
      exact Nat.lt_succ_of_le (List.length_filter_le p xs)
    · by_cases hx : p x
      · rw [List.filter_cons_of_pos hx]
        exact Nat.succ_lt_succ (ih hmem)
      · rw [List.filter_cons_of_neg (by simpa using hx)]
        exact Nat.lt_succ_of_le (Nat.le_of_lt (ih hmem))

/-- A nonempty list of positive naturals has a positive sum. -/
lemma sum_pos_of_pos (l : List ℕ) (hne : l ≠ []) (hpos : ∀ c ∈ l, 0 < c) :
    0 < l.sum := by
  cases l with
  | nil => exact absurd rfl hne
  | cons x xs =>
    have hx := hpos x (List.mem_cons_self x xs)
    simp only [List.sum_cons]
    omega

/-- The 0.25-quantile of four equal values is that value. -/
lemma quantileQ_const_four (c : ℚ) : quantileQ 0.25 [c, c, c, c] = c := by
  have hs : sortL [c, c, c, c] = [c, c, c, c] := by
    simp [sortL, insertSorted, le_refl]
  unfold quantileQ
  rw [hs]
  simp only [ratFloor_eq_intFloor]
  norm_num

/- ===== Claim theorems ===== -/

/-- Claim C2 (code bug): for the group with raw values [0, 0, 1, 2, 5, 7]
(count 6), the percentage vector computed by `display_errands_stats` is
[0.33, 0.17, 0.17, 0.00, 0.00, 0.00] — the "5+" bucket is 0.00, not the
claimed 0.33: `errand_counts[5:]` slices by position, and the series has only
five distinct values, so the slice is empty. -/
theorem percentage_vector_positional_slice :
    pctVector [0, 0, 1, 2, 5, 7] 6
      = [33/100, 17/100, 17/100, 0, 0, 0] := by decide

/-- Claim C3 (code bug): applied to a stratified statistics map with exactly
one group, `display_errands_stats` raises ZeroDivisionError at
`sum(other_means) / len(other_means)` (the list of other means is empty)
instead of completing. -/
theorem single_group_division_error :
    stratifiedRows [("A", [1, 2, 3])] = Except.error "ZeroDivisionError" := by
  rfl

/-- Claim C4 counterexample: on the empty count mapping,
`calculate_categorical_metrics` does not return a Gini coefficient of 0
(it returns 1 = 1 − sum of an empty list of squared proportions), so the
claimed output {unique 0, gini 0, relative 0} is wrong. -/
theorem empty_metrics_claim_false :
    ¬ ((calculate_categorical_metrics []).unique = 0 ∧
       (calculate_categorical_metrics []).gini_coef = 0 ∧
       (calculate_categorical_metrics []).rel_top_cat = 0) := by decide

/-- Claim C4 (amended): on the empty count mapping,
`calculate_categorical_metrics` completes without raising and returns unique
category count 0, Gini coefficient 1, absolute 80%-mass count 1 and relative
80%-mass 0. -/
theorem empty_metrics_value :
    calculate_categorical_metrics []
      = { unique := 0, gini_coef := 1, abs_top_cat := 1, rel_top_cat := 0 } := by
  decide

/-- Claim C5 counterexample: on the empty count mapping the absolute 80%-mass
count is 1 while the unique category count is 0, so the claimed bound
`abs_top_cat ≤ unique` fails for the empty mapping. -/
theorem empty_abs_top_exceeds_unique :
    ¬ (1 ≤ (calculate_categorical_metrics []).abs_top_cat ∧
       (calculate_categorical_metrics []).abs_top_cat
         ≤ (calculate_categorical_metrics []).unique) := by decide

/-- Claim C6 counterexample: for the count mapping {A:1, B:1, C:1} the ratio
column of the full table (each ratio rounded to 4 decimals) sums to 0.9999,
which is not within 1e-9 of 1.0. -/
theorem rounded_ratio_sum_off_by_rounding :
    tableRatioSum (fullTable [("A", 1), ("B", 1), ("C", 1)]) = 9999/10000 ∧
      ¬ (|(9999/10000 : ℚ) - 1| ≤ 1/1000000000) := by decide

/-- Claim C8 counterexample: with negative truncation parameters
`create_categorical_table` does not fail at all — top_n = bottom_n = -1 on the
two-category mapping {A:2, B:1} returns a three-row table (negative values are
truthy and flow into pandas `head`/`tail`), not an `InvalidArgument` error. -/
theorem negative_params_return_table :
    create_categorical_table [("A", 2), ("B", 1)] (some (-1)) (some (-1))
      = [TRow.data "A" 2 (6667/10000), TRow.sep, TRow.data "B" 1 (3333/10000)] := by
  decide

/-- Claim C1 counterexample: for the stratified statistics map with four
groups of means 10, 10, 10, 100 and equal counts (series [10,10] three times
and [100,100], overall series their union), the mean-100 group "D" does NOT
receive both outlier flags: equal counts never exceed their own 25th
percentile, so the small-group gate fails (and the inter-group z-score is in
any case 0, the other three means having zero variance). -/
theorem stratified_example_not_both_flags :
    ¬ (globFlag [10, 10, 10, 10, 10, 10, 100, 100]
          [("A", [10, 10]), ("B", [10, 10]), ("C", [10, 10]), ("D", [100, 100])]
          [100, 100] ∧
       interFlag [("A", [10, 10]), ("B", [10, 10]), ("C", [10, 10]), ("D", [100, 100])]
          "D" [100, 100]) := by
  rintro ⟨⟨_, hgate⟩, _⟩
  have hq : ¬ (smallThreshold
      [("A", [10, 10]), ("B", [10, 10]), ("C", [10, 10]), ("D", [100, 100])]
      < ((([100, 100] : List ℕ).length : ℕ) : ℚ)) := by decide
  exact hq hgate

/-- Claim C1 (amended): in a stratified statistics map of four groups with
means [10, 10, 10, 100] and all counts equal, `display_errands_stats` sets
neither the global nor the inter-group outlier flag for any group, whatever
the overall series: equal counts never exceed their own 25th percentile, so
the small-group gate `group_count > small_threshold` fails everywhere. -/
theorem equal_count_four_groups_unflagged
    (k1 k2 k3 k4 : String) (s1 s2 s3 s4 overall : List ℕ)
    (_m1 : meanQ s1 = 10) (_m2 : meanQ s2 = 10) (_m3 : meanQ s3 = 10)
    (_m4 : meanQ s4 = 100)
    (e1 : s1.length = s4.length) (e2 : s2.length = s4.length)
    (e3 : s3.length = s4.length) :
    ∀ p ∈ [(k1, s1), (k2, s2), (k3, s3), (k4, s4)],
      ¬ globFlag overall [(k1, s1), (k2, s2), (k3, s3), (k4, s4)] p.2 ∧
      ¬ interFlag [(k1, s1), (k2, s2), (k3, s3), (k4, s4)] p.1 p.2 := by
  have hthr : smallThreshold [(k1, s1), (k2, s2), (k3, s3), (k4, s4)]
      = ((s4.length : ℕ) : ℚ) := by
    unfold smallThreshold
    simp only [List.map_cons, List.map_nil, e1, e2, e3]
    exact quantileQ_const_four _
  have hgate : ∀ s : List ℕ, s.length = s4.length →
      ¬ (smallThreshold [(k1, s1), (k2, s2), (k3, s3), (k4, s4)]
          < ((s.length : ℕ) : ℚ)) := by
    intro s hs
    rw [hthr, hs]
    exact lt_irrefl _
  intro p hp
  simp only [List.mem_cons, List.not_mem_nil, or_false] at hp
  rcases hp with rfl | rfl | rfl | rfl
  · exact ⟨fun h => hgate s1 e1 h.2, fun h => hgate s1 e1 h.2⟩
  · exact ⟨fun h => hgate s2 e2 h.2, fun h => hgate s2 e2 h.2⟩
  · exact ⟨fun h => hgate s3 e3 h.2, fun h => hgate s3 e3 h.2⟩
  · exact ⟨fun h => hgate s4 rfl h.2, fun h => hgate s4 rfl h.2⟩

/-- Witness for `equal_count_four_groups_unflagged` at a concrete map. -/
theorem equal_count_four_groups_unflagged_witness :
    meanQ [10] = 10 ∧ meanQ [100] = 100 ∧
      ¬ globFlag [7] [("A", [10]), ("B", [10]), ("C", [10]), ("D", [100])] [100] ∧
      ¬ interFlag [("A", [10]), ("B", [10]), ("C", [10]), ("D", [100])] "D" [100] := by
  refine ⟨by decide, by decide, ?_, ?_⟩
  · exact ((equal_count_four_groups_unflagged "A" "B" "C" "D" [10] [10] [10] [100] [7]
      (by decide) (by decide) (by decide) (by decide) rfl rfl rfl)
      ("D", [100]) (by decide)).1
  · exact ((equal_count_four_groups_unflagged "A" "B" "C" "D" [10] [10] [10] [100] [7]
      (by decide) (by decide) (by decide) (by decide) rfl rfl rfl)
      ("D", [100]) (by decide)).2

/-- Claim C9: whenever a baseline standard deviation is zero, the
corresponding z-score in `display_errands_stats` is 0 rather than a division
error, independently for the global signal (zero variance of the overall
series) and for the inter-group signal (zero variance of the other groups'
means). -/
theorem zero_std_zero_zscore :
    (∀ overall series : List ℕ,
        sampleVarN overall = some 0 → globalZ overall series = 0) ∧
    (∀ (oms : List ℚ) (gm : ℚ), sampleVar oms = some 0 → interZ oms gm = 0) := by
  constructor
  · intro ov s h
    unfold globalZ
    rw [h]
    simp [pyZScore, Real.sqrt_zero]
  · intro oms gm h
    unfold interZ
    rw [h]
    simp [pyZScore, Real.sqrt_zero]

/-- Witness for `zero_std_zero_zscore` at concrete constant series. -/
theorem zero_std_zero_zscore_witness :
    (sampleVarN [3, 3] = some 0 ∧ globalZ [3, 3] [5] = 0) ∧
      (sampleVar [2, 2] = some 0 ∧ interZ [2, 2] 7 = 0) :=
  ⟨⟨by decide, zero_std_zero_zscore.1 [3, 3] [5] (by decide)⟩,
   ⟨by decide, zero_std_zero_zscore.2 [2, 2] 7 (by decide)⟩⟩

/-- Claim C10: a truncation parameter provided as 0 is falsy in the guard
`if top_n and bottom_n and ...`, so `create_categorical_table` returns the
full untruncated table, exactly as when the parameter is omitted. -/
theorem zero_param_full_table (counts : List (String × ℕ)) (t b : Option ℤ)
    (h : t = some 0 ∨ b = some 0) :
    create_categorical_table counts t b = fullTable counts := by
  unfold create_categorical_table
  rcases h with rfl | rfl
  · rw [if_neg]
    rintro ⟨h1, _, _⟩
    exact h1 rfl
  · rw [if_neg]
    rintro ⟨_, h2, _⟩
    exact h2 rfl

/-- Witness for `zero_param_full_table`. -/
theorem zero_param_full_table_witness :
    create_categorical_table [("A", 1)] (some 0) none = fullTable [("A", 1)] :=
  zero_param_full_table [("A", 1)] (some 0) none (Or.inl rfl)

/-- Claim C5 (amended): for every nonempty count mapping with positive counts
the absolute 80%-mass category count is at least 1 and at most the unique
category count (for the empty mapping it is 1, exceeding the unique count 0). -/
theorem abs_top_cat_bounds (counts : List ℕ) (hne : counts ≠ [])
    (hpos : ∀ c ∈ counts, 0 < c) :
    1 ≤ (calculate_categorical_metrics counts).abs_top_cat ∧
      (calculate_categorical_metrics counts).abs_top_cat
        ≤ (calculate_categorical_metrics counts).unique := by
  have habs : (calculate_categorical_metrics counts).abs_top_cat =
      ((cumsum (counts.map fun (c : ℕ) => (c : ℚ) / ((counts.sum : ℕ) : ℚ))).filter
        fun r => decide (r ≤ (0.8 : ℚ))).length + 1 := rfl
  have huniq : (calculate_categorical_metrics counts).unique = counts.length := rfl
  refine ⟨by rw [habs]; omega, ?_⟩
  rw [habs, huniq]
  have hT : (0 : ℚ) < ((counts.sum : ℕ) : ℚ) := by
    exact_mod_cast sum_pos_of_pos counts hne hpos
  have hsum : (counts.map fun (c : ℕ) => (c : ℚ) / ((counts.sum : ℕ) : ℚ)).sum = 1 := by
    rw [sum_map_natCast_div]
    exact div_self (ne_of_gt hT)
  have hne' : (counts.map fun (c : ℕ) => (c : ℚ) / ((counts.sum : ℕ) : ℚ)) ≠ [] := by
    intro h
    exact hne (List.map_eq_nil_iff.mp h)
  have hmem : (1 : ℚ)
      ∈ cumsum (counts.map fun (c : ℕ) => (c : ℚ) / ((counts.sum : ℕ) : ℚ)) := by
    have hm := add_sum_mem_cumsumFrom
      (counts.map fun (c : ℕ) => (c : ℚ) / ((counts.sum : ℕ) : ℚ)) 0 hne'
    rw [zero_add, hsum] at hm
    exact hm
  have hlt := length_filter_lt_of_mem (fun r => decide (r ≤ (0.8 : ℚ))) _ 1 hmem
    (by norm_num)
  have hlen : (cumsum (counts.map
      fun (c : ℕ) => (c : ℚ) / ((counts.sum : ℕ) : ℚ))).length = counts.length := by
    rw [cumsum, cumsumFrom_length, List.length_map]
  omega

/-- Witness for `abs_top_cat_bounds` at the count mapping [2, 3]. -/
theorem abs_top_cat_bounds_witness :
    ([2, 3] : List ℕ) ≠ [] ∧ (∀ c ∈ ([2, 3] : List ℕ), 0 < c) ∧
      (1 ≤ (calculate_categorical_metrics [2, 3]).abs_top_cat ∧
        (calculate_categorical_metrics [2, 3]).abs_top_cat
          ≤ (calculate_categorical_metrics [2, 3]).unique) :=
  ⟨by decide, by decide, abs_top_cat_bounds [2, 3] (by decide) (by decide)⟩

/-- Claim C6 (amended): in every frequency table built from a nonempty count
mapping with positive counts, each data row's ratio is its count divided by
the total count rounded to 4 decimals, and the sum of the unrounded ratios
count/total over the full untruncated table lies within 1e-9 of 1.0 (it is
exactly 1); the rounded ratios themselves can deviate by up to 5e-5 per row. -/
theorem ratio_formula_and_unrounded_sum (counts : List (String × ℕ))
    (hne : counts ≠ []) (hpos : ∀ p ∈ counts, 0 < p.2) :
    (∀ r ∈ fullTable counts, ∃ cat c, r = TRow.data cat c
        (roundQ 4 ((c : ℚ) / ((totalCountOf counts : ℕ) : ℚ))) ∧ (cat, c) ∈ counts) ∧
      |(counts.map fun p => (p.2 : ℚ) / ((totalCountOf counts : ℕ) : ℚ)).sum - 1|
        ≤ 1/1000000000 := by
  constructor
  · intro r hr
    rw [fullTable, List.mem_map] at hr
    obtain ⟨p, hp, rfl⟩ := hr
    exact ⟨p.1, p.2, rfl, by simpa using hp⟩
  · have hT : (0 : ℚ) < ((totalCountOf counts : ℕ) : ℚ) := by
      have hpos' : 0 < totalCountOf counts := by
        apply sum_pos_of_pos
        · intro h
          exact hne (List.map_eq_nil_iff.mp h)
        · intro c hc
          rw [List.mem_map] at hc
          obtain ⟨p, hp, rfl⟩ := hc
          exact hpos p hp
      exact_mod_cast hpos'
    have hsum : (counts.map
        fun p => (p.2 : ℚ) / ((totalCountOf counts : ℕ) : ℚ)).sum = 1 := by
      rw [sum_map_pair_div]
      exact div_self (ne_of_gt hT)
    rw [hsum]
    norm_num

/-- Witness for `ratio_formula_and_unrounded_sum` at the mapping {A:1, B:3}. -/
theorem ratio_formula_and_unrounded_sum_witness :
    (([("A", 1), ("B", 3)] : List (String × ℕ)) ≠ [] ∧
        (∀ p ∈ ([("A", 1), ("B", 3)] : List (String × ℕ)), 0 < p.2)) ∧
      ((∀ r ∈ fullTable [("A", 1), ("B", 3)], ∃ cat c, r = TRow.data cat c
          (roundQ 4 ((c : ℚ) / ((totalCountOf [("A", 1), ("B", 3)] : ℕ) : ℚ))) ∧
          (cat, c) ∈ ([("A", 1), ("B", 3)] : List (String × ℕ))) ∧
        |(([("A", 1), ("B", 3)] : List (String × ℕ)).map
            fun p => (p.2 : ℚ) / ((totalCountOf [("A", 1), ("B", 3)] : ℕ) : ℚ)).sum - 1|
          ≤ 1/1000000000) :=
  ⟨⟨by decide, by decide⟩,
    ratio_formula_and_unrounded_sum [("A", 1), ("B", 3)] (by decide) (by decide)⟩

/-- Claim C7: `create_categorical_table` returns the top_n rows, one literal
separator row and the bottom_n rows — exactly top_n + bottom_n + 1 rows —
precisely when both parameters are provided as positive values and the full
table has more than top_n + bottom_n + 1 rows; in every other case (either
parameter omitted or zero, or a small table) it returns the full table.
(Negative parameters are outside this claim; they are settled with C8.) -/
theorem truncation_rule (counts : List (String × ℕ)) (t b : Option ℤ) :
    (∀ tv bv : ℤ, t = some tv → 0 < tv → b = some bv → 0 < bv →
        tv + bv + 1 < (counts.length : ℤ) →
        create_categorical_table counts t b
            = (fullTable counts).take tv.toNat ++ [TRow.sep]
              ++ (fullTable counts).drop ((fullTable counts).length - bv.toNat) ∧
          (create_categorical_table counts t b).length = tv.toNat + bv.toNat + 1) ∧
    ((∀ tv : ℤ, t = some tv → 0 ≤ tv) → (∀ bv : ℤ, b = some bv → 0 ≤ bv) →
      (∀ tv bv : ℤ, t = some tv → 0 < tv → b = some bv → 0 < bv →
          ¬ (tv + bv + 1 < (counts.length : ℤ))) →
      create_categorical_table counts t b = fullTable counts) := by
  constructor
  · intro tv bv ht htv hb hbv hlen
    subst ht
    subst hb
    have heq : create_categorical_table counts (some tv) (some bv)
        = (fullTable counts).take tv.toNat ++ [TRow.sep]
          ++ (fullTable counts).drop ((fullTable counts).length - bv.toNat) := by
      unfold create_categorical_table pyHead pyTail
      simp only [Option.getD_some]
      rw [if_pos ⟨htv.ne', hbv.ne', hlen⟩, if_pos htv.le, if_pos hbv.le]
    refine ⟨heq, ?_⟩
    rw [heq]
    have hfull : (fullTable counts).length = counts.length :=
      List.length_map counts _
    simp only [List.length_append, List.length_take, List.length_drop,
      List.length_cons, List.length_nil]
    omega
  · intro hnt hnb hnc
    unfold create_categorical_table
    rw [if_neg]
    rintro ⟨h1, h2, h3⟩
    cases t with
    | none => exact h1 rfl
    | some tv =>
      cases b with
      | none => exact h2 rfl
      | some bv =>
        simp only [Option.getD_some] at h1 h2 h3
        have htv : 0 < tv := lt_of_le_of_ne (hnt tv rfl) (Ne.symm h1)
        have hbv : 0 < bv := lt_of_le_of_ne (hnb bv rfl) (Ne.symm h2)
        exact hnc tv bv rfl htv rfl hbv h3

/-- Witness for `truncation_rule`: a six-category table truncated with
top_n = bottom_n = 2 has exactly 2 + 2 + 1 rows, and with omitted parameters
it is returned whole. -/
theorem truncation_rule_witness :
    (create_categorical_table
          [("A", 6), ("B", 5), ("C", 4), ("D", 3), ("E", 2), ("F", 1)]
          (some 2) (some 2)
        = (fullTable [("A", 6), ("B", 5), ("C", 4), ("D", 3), ("E", 2), ("F", 1)]).take
            (2 : ℤ).toNat ++ [TRow.sep]
          ++ (fullTable [("A", 6), ("B", 5), ("C", 4), ("D", 3), ("E", 2), ("F", 1)]).drop
            ((fullTable [("A", 6), ("B", 5), ("C", 4), ("D", 3), ("E", 2), ("F", 1)]).length
              - (2 : ℤ).toNat) ∧
      (create_categorical_table
          [("A", 6), ("B", 5), ("C", 4), ("D", 3), ("E", 2), ("F", 1)]
          (some 2) (some 2)).length = (2 : ℤ).toNat + (2 : ℤ).toNat + 1) ∧
    create_categorical_table
        [("A", 6), ("B", 5), ("C", 4), ("D", 3), ("E", 2), ("F", 1)] none none
      = fullTable [("A", 6), ("B", 5), ("C", 4), ("D", 3), ("E", 2), ("F", 1)] :=
  ⟨(truncation_rule [("A", 6), ("B", 5), ("C", 4), ("D", 3), ("E", 2), ("F", 1)]
      (some 2) (some 2)).1 2 2 rfl (by decide) rfl (by decide) (by decide),
   (truncation_rule [("A", 6), ("B", 5), ("C", 4), ("D", 3), ("E", 2), ("F", 1)]
      none none).2 (fun tv h => by cases h) (fun bv h => by cases h)
      (fun tv bv h => by cases h)⟩

/-- Claim C8 (amended): `create_categorical_table` performs no validation of
its truncation parameters — negative values do not raise any error; they are
truthy in the guard, always pass the size check, and flow into pandas
`head`/`tail`, which for negative n drop |n| rows from the end resp. the
start of the table. -/
theorem negative_params_slice (counts : List (String × ℕ)) (t b : ℤ)
    (ht : t < 0) (hb : b < 0) :
    create_categorical_table counts (some t) (some b)
      = (fullTable counts).take ((fullTable counts).length - (-t).toNat)
        ++ [TRow.sep] ++ (fullTable counts).drop ((-b).toNat) := by
  unfold create_categorical_table pyHead pyTail
  simp only [Option.getD_some]
  rw [if_pos ⟨by omega, by omega, by omega⟩, if_neg (by omega), if_neg (by omega)]

/-- Witness for `negative_params_slice`. -/
theorem negative_params_slice_witness :
    create_categorical_table [("A", 2)] (some (-1)) (some (-1))
      = (fullTable [("A", 2)]).take ((fullTable [("A", 2)]).length - (-(-1 : ℤ)).toNat)
        ++ [TRow.sep] ++ (fullTable [("A", 2)]).drop ((-(-1 : ℤ)).toNat) :=
  negative_params_slice [("A", 2)] (-1) (-1) (by decide) (by decide)

end ErrandsAnalysis
